import Mathlib

/-!
# Request authentication and authorization of 2ofclubs-server

A shallow embedding of the authorization gate (`app/app.go`), of the admin
role check (`app/handler/admin.go`) and of the credential issuer and verifier
(`Backend/app/handler/common.go`), with the properties proved about them.

Conventions of the embedding:

* Go pointers to mutable collaborators (`*gorm.DB`, `*redis.Client`,
  `http.ResponseWriter`, `*status.Status`) become values that are passed in
  and returned.
* Whatever else a called function can read or change (the server behind the
  liveness store, logs) is an ambient state of an arbitrary type, handed from
  one call to the next in the order of evaluation of the source.
* An `http.ResponseWriter` is the response writer of net/http; it is
  represented by the sequence of calls made on it, in order.
* A Go `nil` slice or map entry is `none`; a non-nil slice is `some xs`.
* A run-time panic is the result `none` of an `Option`-valued function.
* The clock is an argument: `time.Now()` and the `TimeFunc` of jwt-go read
  the clock reading that is passed in.
* The packages the program imports (net/http, time, fmt, gorm and jwt-go) are
  embedded as far as the program relies on them; the coding and hashing
  primitives of jwt-go are parameters (`jwt.Lib`).
-/

namespace http

/-- The two calls the program makes on an `http.ResponseWriter`. -/
inductive WriterCall where
  | WriteHeader (code : Int)
  | Write (data : String)
  deriving DecidableEq, Repr

/-- An `http.ResponseWriter`: the calls that returned so far, oldest first,
and whether its `Write` reports an error (for instance a closed
connection). -/
structure ResponseWriter where
  calls : List WriterCall
  writeFails : Bool
  deriving DecidableEq, Repr

/-- The flag `wroteHeader` of the response writer of net/http: the header is
written by the first `WriteHeader`, or by the first `Write` when there was
none. -/
def ResponseWriter.wroteHeader (w : ResponseWriter) : Bool :=
  !w.calls.isEmpty

/-- The test of `checkWriteHeaderCode` of net/http: a status code has three
digits. -/
def validWriteHeaderCode (code : Int) : Bool :=
  decide (100 ≤ code) && decide (code ≤ 999)

/-- The method `WriteHeader` of the response writer of net/http. Once the header is
written a further call is logged as superfluous and returns. Otherwise
`checkWriteHeaderCode` panics for a code outside 100 to 999, and the code is
taken when it is inside. -/
def ResponseWriter.WriteHeader (w : ResponseWriter) (code : Int) : Option ResponseWriter :=
  if w.wroteHeader then
    some { w with calls := w.calls ++ [WriterCall.WriteHeader code] }
  else if validWriteHeaderCode code then
    some { w with calls := w.calls ++ [WriterCall.WriteHeader code] }
  else
    none

/-- The method `Write` of the response writer, called once by `fmt.Fprint`: the
pair `(n, err)` with err as a boolean, and the writer afterwards. -/
def ResponseWriter.Write (w : ResponseWriter) (data : String) :
    (Int × Bool) × ResponseWriter :=
  (if w.writeFails then (0, true) else ((data.utf8ByteSize : Int), false),
   { w with calls := w.calls ++ [WriterCall.Write data] })

/-- An `http.Request`, reduced to its header map `map[string][]string`.
A key that is not in the map reads as the nil slice, `none`. The server of
net/http stores at least one value under every key it reads from a request;
a header sent with no value is stored as the one empty string. -/
structure Request where
  Header : String → Option (List String)

def StatusUnauthorized : Int := 401
def StatusNotFound : Int := 404
def StatusInternalServerError : Int := 500

/-- The entries of the table `http.StatusText` of net/http for the three
codes that `app.go` passes to it. The other entries are left out: they read
as the empty string here. -/
def StatusText (code : Int) : String :=
  if code = 401 then "Unauthorized"
  else if code = 404 then "Not Found"
  else if code = 500 then "Internal Server Error"
  else ""

end http

namespace model

/-- The fields of `model.User` that the sources read. -/
structure User where
  Username : String
  IsApproved : Bool
  IsAdmin : Bool
  deriving DecidableEq, Repr

end model

namespace gorm

/-- The database behind a `*gorm.DB` handle: the rows of the `user` table in
primary-key order. -/
structure DB where
  user : List model.User
  deriving DecidableEq, Repr

end gorm

namespace app

/-- WriteData of `app/app.go`: sets the status code, prints the data, and
returns the number of bytes written or -1 when the write failed. The first
component is the value returned, `none` when `WriteHeader` panics; the second
is the response writer afterwards, untouched by a call that panics. -/
def WriteData (data : String) (code : Int) (w : http.ResponseWriter) :
    Option Int × http.ResponseWriter :=
  match w.WriteHeader code with
  | none => (none, w)
  | some w1 =>
    let out := w1.Write data
    if out.1.2 then (some (-1), out.2) else (some out.1.1, out.2)

/-- The collaborators that `Handle` calls. -/
inductive Call where
  | VerifyJWT
  | IsActiveToken
  | h
  deriving DecidableEq, Repr

/-- The collaborators of `Handle` from the packages `handler` and `status`,
whose bodies are not among the sources: `handler.VerifyJWT`,
`handler.IsActiveToken`, `status.New` and `(*status.Status).Display`. The two
functions of package handler take the ambient state and return it with their
result. -/
structure Deps (Redis Status σ : Type) where
  VerifyJWT : http.Request → σ → Bool × σ
  IsActiveToken : Redis → http.Request → σ → Bool × σ
  New : Status
  Display : Status → String

/-- What a call of a business handler leaves behind: the collaborators it
was handed by reference, the ambient state, and its two results
`(httpStatus int, err error)`. -/
structure HandlerResult (Redis Status σ : Type) where
  db : gorm.DB
  redis : Redis
  w : http.ResponseWriter
  s : Status
  st : σ
  httpStatus : Int
  err : Option String

/-- The function type `hdlr` of `app/app.go`. -/
abbrev hdlr (Redis Status σ : Type) : Type :=
  gorm.DB → Redis → http.ResponseWriter → http.Request → Status → σ →
    HandlerResult Redis Status σ

/-- The fields of `App` that `Handle` uses. -/
structure App (Redis : Type) where
  db : gorm.DB
  redis : Redis

/-- The state after one request was served by the function `Handle` returns:
database, liveness store, response writer, ambient state, and whether the
function ended in a panic. -/
structure Served (Redis σ : Type) where
  db : gorm.DB
  redis : Redis
  w : http.ResponseWriter
  st : σ
  panicked : Bool
  deriving DecidableEq

/-- Handle of `app/app.go`, applied to a request in ambient state `st`. The
ambient state goes through the calls in the order the source evaluates them:
`VerifyJWT` first, `IsActiveToken` only when `isValid` is true (the `&&` of
the source), the handler only when both are true. -/
def Handle {Redis Status σ : Type} (d : Deps Redis Status σ) (a : App Redis)
    (h : hdlr Redis Status σ) (verifyRequest : Bool)
    (w : http.ResponseWriter) (r : http.Request) (st : σ) : Served Redis σ :=
  let s := d.New
  if verifyRequest then
    let isValid := d.VerifyJWT r st
    if isValid.1 then
      let active := d.IsActiveToken a.redis r isValid.2
      if active.1 then
        let res := h a.db a.redis w r s active.2
        match res.err with
        | some _ =>
          let out := WriteData (http.StatusText http.StatusInternalServerError)
            http.StatusInternalServerError res.w
          { db := res.db, redis := res.redis, w := out.2, st := res.st,
            panicked := out.1.isNone }
        | none =>
          let out := WriteData (d.Display res.s) res.httpStatus res.w
          { db := res.db, redis := res.redis, w := out.2, st := res.st,
            panicked := out.1.isNone }
      else
        let out := WriteData (http.StatusText http.StatusUnauthorized)
          http.StatusUnauthorized w
        { db := a.db, redis := a.redis, w := out.2, st := active.2,
          panicked := out.1.isNone }
    else
      let out := WriteData (http.StatusText http.StatusUnauthorized)
        http.StatusUnauthorized w
      { db := a.db, redis := a.redis, w := out.2, st := isValid.2,
        panicked := out.1.isNone }
  else
    let res := h a.db a.redis w r s st
    match res.err with
    | some _ =>
      let out := WriteData (http.StatusText http.StatusInternalServerError)
        http.StatusInternalServerError res.w
      { db := res.db, redis := res.redis, w := out.2, st := res.st,
        panicked := out.1.isNone }
    | none =>
      let out := WriteData (d.Display res.s) res.httpStatus res.w
      { db := res.db, redis := res.redis, w := out.2, st := res.st,
        panicked := out.1.isNone }

/-- The ambient state in which `Handle` calls the handler of an admitted
request: on a protected route the state that `VerifyJWT` and then
`IsActiveToken` left, on an unprotected route the state of the request. -/
def stateAtHandler {Redis Status σ : Type} (d : Deps Redis Status σ) (a : App Redis)
    (verifyRequest : Bool) (r : http.Request) (st : σ) : σ :=
  if verifyRequest then (d.IsActiveToken a.redis r (d.VerifyJWT r st).2).2 else st

/-- The call of the handler that `Handle` makes for an admitted request. -/
def handlerCall {Redis Status σ : Type} (d : Deps Redis Status σ) (a : App Redis)
    (h : hdlr Redis Status σ) (verifyRequest : Bool)
    (w : http.ResponseWriter) (r : http.Request) (st : σ) : HandlerResult Redis Status σ :=
  h a.db a.redis w r d.New (stateAtHandler d a verifyRequest r st)

/-- The same collaborators, each of which also enters its name in a log kept
beside the ambient state when it is called. -/
def Deps.recording {Redis Status σ : Type} (d : Deps Redis Status σ) :
    Deps Redis Status (σ × List Call) where
  VerifyJWT := fun r st =>
    ((d.VerifyJWT r st.1).1, ((d.VerifyJWT r st.1).2, st.2 ++ [Call.VerifyJWT]))
  IsActiveToken := fun redis r st =>
    ((d.IsActiveToken redis r st.1).1,
      ((d.IsActiveToken redis r st.1).2, st.2 ++ [Call.IsActiveToken]))
  New := d.New
  Display := d.Display

/-- The same handler, which also enters its name in the log when called. -/
def recording {Redis Status σ : Type} (h : hdlr Redis Status σ) :
    hdlr Redis Status (σ × List Call) :=
  fun db redis w r s st =>
    { db := (h db redis w r s st.1).db, redis := (h db redis w r s st.1).redis,
      w := (h db redis w r s st.1).w, s := (h db redis w r s st.1).s,
      st := ((h db redis w r s st.1).st, st.2 ++ [Call.h]),
      httpStatus := (h db redis w r s st.1).httpStatus, err := (h db redis w r s st.1).err }

/-- The trace of a request: the log that the collaborators and the handler
leave, each entering its name when `Handle` calls it, starting from the empty
log. -/
def calls {Redis Status σ : Type} (d : Deps Redis Status σ) (a : App Redis)
    (h : hdlr Redis Status σ) (verifyRequest : Bool)
    (w : http.ResponseWriter) (r : http.Request) (st : σ) : List Call :=
  (Handle d.recording a (recording h) verifyRequest w r (st, [])).st.2

end app

namespace time

/-- A `time.Time` read from the system clock: nanoseconds since the Unix
epoch. -/
abbrev Time : Type := Nat

def Second : Nat := 1000000000
def Minute : Nat := 60 * Second

/-- The method `Add` of `time.Time`, for a non-negative duration. -/
def Time.Add (t : Time) (d : Nat) : Time := t + d

/-- The method `Unix` of `time.Time`: whole seconds since the epoch. -/
def Time.Unix (t : Time) : Int := ((t / Second : Nat) : Int)

end time

namespace jwt

/-- The values found in a claim set `map[string]interface{}`: a number
(`int64` when set by the program, `float64` after JSON decoding; integral
values only), a string, or a `time.Time`. -/
inductive Value where
  | number (n : Int)
  | string (s : String)
  | time (t : time.Time)
  deriving DecidableEq, Repr

/-- The type `jwt.MapClaims`; a key that is not in the map reads as `none`. -/
abbrev MapClaims : Type := String → Option Value

/-- Assignment `m[k] = v` on a claim set. -/
def MapClaims.set (m : MapClaims) (k : String) (v : Value) : MapClaims :=
  fun x => if x = k then some v else m x

/-- The signing methods that jwt-go registers. The first three are the
values of Go type `*SigningMethodHMAC`. -/
inductive SigningMethod where
  | HS256 | HS384 | HS512
  | RS256 | RS384 | RS512
  | PS256 | PS384 | PS512
  | ES256 | ES384 | ES512
  | none
  deriving DecidableEq, Repr

/-- The method `Alg` of a signing method. -/
def SigningMethod.Alg : SigningMethod → String
  | .HS256 => "HS256" | .HS384 => "HS384" | .HS512 => "HS512"
  | .RS256 => "RS256" | .RS384 => "RS384" | .RS512 => "RS512"
  | .PS256 => "PS256" | .PS384 => "PS384" | .PS512 => "PS512"
  | .ES256 => "ES256" | .ES384 => "ES384" | .ES512 => "ES512"
  | .none => "none"

/-- The registry lookup `jwt.GetSigningMethod`; `none` for a name that is
not registered. -/
def GetSigningMethod (alg : String) : Option SigningMethod :=
  if alg = "HS256" then some .HS256 else if alg = "HS384" then some .HS384
  else if alg = "HS512" then some .HS512 else if alg = "RS256" then some .RS256
  else if alg = "RS384" then some .RS384 else if alg = "RS512" then some .RS512
  else if alg = "PS256" then some .PS256 else if alg = "PS384" then some .PS384
  else if alg = "PS512" then some .PS512 else if alg = "ES256" then some .ES256
  else if alg = "ES384" then some .ES384 else if alg = "ES512" then some .ES512
  else if alg = "none" then some .none else Option.none

/-- The type assertion `m.(*jwt.SigningMethodHMAC)` succeeds. -/
def SigningMethod.isHMAC : SigningMethod → Bool
  | .HS256 | .HS384 | .HS512 => true
  | _ => false

/-- The bits of `ValidationError.Errors` that `Parse` can set. -/
inductive ErrorFlag where
  | Malformed
  | Unverifiable
  | SignatureInvalid
  | Expired
  | IssuedAt
  | NotValidYet
  deriving DecidableEq, Repr

/-- A `*jwt.ValidationError`: the set bits of its `Errors` field, in the
order they were set. The error is `valid()` when no bit is set. -/
abbrev ValidationError : Type := List ErrorFlag

/-- The fields of `jwt.Token` that the program and `Parse` use. -/
structure Token where
  Raw : String
  Method : SigningMethod
  Claims : MapClaims
  Signature : String
  Valid : Bool

/-- A `jwt.Keyfunc`: the pair `(interface{}, error)` it returns, the key
being a byte string when present. -/
abbrev Keyfunc : Type := Token → Option String × Option String

/-- What the first steps of `ParseUnverified` read from a string of three
dot-separated segments: the `alg` header when it is a string, the claims, the
first two segments joined by a dot, and the third segment. -/
structure Segments where
  alg : Option String
  Claims : MapClaims
  signingString : String
  Signature : String

/-- The primitives of jwt-go and of the Go standard library underneath
`Parse` and `SignedString`, which the embedding does not compute: base64url
and JSON coding, the HMAC function, and the verification of the other
signing methods. -/
structure Lib where
  /-- The function `strings.Split` on dots, `DecodeSegment` and `json.Unmarshal` of
  header and claims; `none` for a string that is malformed. -/
  decode : String → Option Segments
  /-- The method `Token.SigningString`: header (with the given `alg`) and claims as
  JSON, each through `EncodeSegment`, joined by a dot; the error of
  `json.Marshal` when marshalling fails. -/
  SigningString : String → MapClaims → Except String String
  /-- The function `jwt.EncodeSegment`. -/
  EncodeSegment : List UInt8 → String
  /-- The function `jwt.DecodeSegment`; `none` for an error. -/
  DecodeSegment : String → Option (List UInt8)
  /-- The HMAC of a message under a key, with the hash of the method. -/
  hmac : SigningMethod → String → String → List UInt8
  /-- The method `Verify` of the signing methods that are not HMAC, on signing string,
  signature and key: `true` for a nil error. -/
  verifyOther : SigningMethod → String → String → Option String → Bool
  /-- The text `json.Marshal` gives for a `time.Time`. -/
  formatTime : time.Time → String

/-- The image of a claim value after `json.Marshal` and `json.Unmarshal`: a
`time.Time` comes back as the string it was marshalled to. -/
def wire (formatTime : time.Time → String) : Value → Value
  | .time t => .string (formatTime t)
  | v => v

/-- The method `Sign` of `*SigningMethodHMAC` with a `[]byte` key. -/
def Lib.SignHMAC (lib : Lib) (m : SigningMethod) (signingString : String)
    (key : String) : String :=
  lib.EncodeSegment (lib.hmac m key signingString)

/-- The method `Verify` of a signing method, `true` for a nil error. For HMAC: the key
must be a `[]byte`, the signature must decode, and the decoded signature must
equal the HMAC recomputed over the signing string. -/
def Lib.Verify (lib : Lib) (m : SigningMethod) (signingString signature : String)
    (key : Option String) : Bool :=
  if m.isHMAC then
    match key with
    | Option.none => false
    | some keyBytes =>
      match lib.DecodeSegment signature with
      | Option.none => false
      | some sig => decide (sig = lib.hmac m keyBytes signingString)
  else lib.verifyOther m signingString signature key

/-- The helper `verifyExp` of jwt-go: an `exp` of zero counts as absent;
otherwise the claim holds while `now <= exp`. -/
def verifyExp (exp now : Int) (required : Bool) : Bool :=
  if exp = 0 then !required else decide (now ≤ exp)

/-- The helper `verifyIat` of jwt-go. -/
def verifyIat (iat now : Int) (required : Bool) : Bool :=
  if iat = 0 then !required else decide (now ≥ iat)

/-- The helper `verifyNbf` of jwt-go. -/
def verifyNbf (nbf now : Int) (required : Bool) : Bool :=
  if nbf = 0 then !required else decide (now ≥ nbf)

/-- The method `VerifyExpiresAt` of `MapClaims`: only a numeric `exp` is compared. -/
def MapClaims.VerifyExpiresAt (m : MapClaims) (cmp : Int) (req : Bool) : Bool :=
  match m "exp" with
  | some (.number exp) => verifyExp exp cmp req
  | _ => req == false

/-- The method `VerifyIssuedAt` of `MapClaims`: only a numeric `iat` is compared. -/
def MapClaims.VerifyIssuedAt (m : MapClaims) (cmp : Int) (req : Bool) : Bool :=
  match m "iat" with
  | some (.number iat) => verifyIat iat cmp req
  | _ => req == false

/-- The method `VerifyNotBefore` of `MapClaims`: only a numeric `nbf` is compared. -/
def MapClaims.VerifyNotBefore (m : MapClaims) (cmp : Int) (req : Bool) : Bool :=
  match m "nbf" with
  | some (.number nbf) => verifyNbf nbf cmp req
  | _ => req == false

/-- The method `Valid` of `MapClaims` at Unix time `now`: the error bits it sets (none for
a nil error). -/
def MapClaims.Valid (m : MapClaims) (now : Int) : ValidationError :=
  (if m.VerifyExpiresAt now false = false then [ErrorFlag.Expired] else []) ++
  (if m.VerifyIssuedAt now false = false then [ErrorFlag.IssuedAt] else []) ++
  (if m.VerifyNotBefore now false = false then [ErrorFlag.NotValidYet] else [])

/-- The function `jwt.Parse` of jwt-go (version 3, the import path of
`common.go`), at clock reading `now`. In order: the string is split and
decoded; the method named by `alg` is looked up; the key function is asked
for the key, and its error ends the parse; the claims are validated; the
signature is verified; the token is marked valid and returned without error
when no error bit was set. The token that comes with an error of the first
steps is not read by the program and is given as nil. -/
def Parse (lib : Lib) (now : time.Time) (tokenString : String) (keyFunc : Keyfunc) :
    Option Token × Option ValidationError :=
  match lib.decode tokenString with
  | Option.none => (Option.none, some [ErrorFlag.Malformed])
  | some seg =>
    match seg.alg with
    | Option.none => (Option.none, some [ErrorFlag.Unverifiable])
    | some alg =>
      match GetSigningMethod alg with
      | Option.none => (Option.none, some [ErrorFlag.Unverifiable])
      | some method =>
        let token : Token :=
          { Raw := tokenString, Method := method, Claims := seg.Claims,
            Signature := "", Valid := false }
        match keyFunc token with
        | (_, some _) => (some token, some [ErrorFlag.Unverifiable])
        | (key, Option.none) =>
          let vErr := token.Claims.Valid (time.Time.Unix now)
          let token := { token with Signature := seg.Signature }
          let vErr :=
            if lib.Verify token.Method seg.signingString token.Signature key then vErr
            else vErr ++ [ErrorFlag.SignatureInvalid]
          if vErr = [] then (some { token with Valid := true }, Option.none)
          else (some token, some vErr)

end jwt

namespace handler

/-- WriteData of `Backend/app/handler/common.go`: the value returned, `none`
when `WriteHeader` panics, and the response writer afterwards. -/
def WriteData (data : String) (code : Int) (w : http.ResponseWriter) :
    Option Int × http.ResponseWriter :=
  match w.WriteHeader code with
  | none => (none, w)
  | some w1 =>
    let out := w1.Write data
    if out.1.2 then (some (-1), out.2) else (some out.1.1, out.2)

/-- The key function kf of `common.go`: the pair `(interface{}, error)`. -/
def kf (token : jwt.Token) : Option String × Option String :=
  if !token.Method.isHMAC then
    (none, some "an error occured")
  else
    (some "2ofClubs", none)

/-- IsValidJWT of `common.go`, at clock reading `now`: the boolean result
and the response writer afterwards. Indexing an empty slice, reading `Valid`
through a nil token, or a panic of WriteData, is a panic. -/
def IsValidJWT (lib : jwt.Lib) (now : time.Time) (w : http.ResponseWriter)
    (r : http.Request) : Option (Bool × http.ResponseWriter) :=
  let deny : Option (Bool × http.ResponseWriter) :=
    match WriteData "Unauthorized" http.StatusUnauthorized w with
    | (some _, w1) => some (false, w1)
    | (Option.none, _) => none
  match r.Header "Token" with
  | some token =>
    match token with
    | [] => none
    | token0 :: _ =>
      match jwt.Parse lib now token0 kf with
      | (some t, Option.none) => if t.Valid then some (true, w) else deny
      | (Option.none, Option.none) => none
      | (_, some _) => deny
  | Option.none => deny

/-- The claim set that GenerateJWT fills in, lines 50 to 54 of `common.go`. -/
def issuedClaims (sysTime : time.Time) (subject : String) : jwt.MapClaims :=
  let claims : jwt.MapClaims := fun _ => none
  let claims := claims.set "iat" (jwt.Value.time sysTime)
  let claims := claims.set "exp" (jwt.Value.number (time.Time.Unix (sysTime.Add (time.Minute * 5))))
  let claims := claims.set "sub" (jwt.Value.string subject)
  claims

/-- GenerateJWT of `common.go`, with `time.Now()` reading `sysTime`: the pair
`(string, error)`. `SignedString` is the signing string, a dot, and the
signature of the token method over the signing string. -/
def GenerateJWT (lib : jwt.Lib) (sysTime : time.Time) (subject : String) :
    String × Option String :=
  let method := jwt.SigningMethod.HS256
  let claims := issuedClaims sysTime subject
  match lib.SigningString method.Alg claims with
  | Except.error err => ("", some err)
  | Except.ok sstr =>
    let sig := lib.SignHMAC method sstr "2ofClubs"
    (sstr ++ "." ++ sig, none)

end handler

namespace model

/-- Modelled from the spec: the constructor `NewUser` of package model, which
is not among the sources; a user record with every field at its zero value. -/
def NewUser : User := { Username := "", IsApproved := false, IsAdmin := false }

/-- Modelled from the spec: the constants `UserTable` and `UsernameColumn` of
package model, which are not among the sources; the names of the table of
identity records and of its subject column. -/
def UserTable : String := "user"

def UsernameColumn : String := "username"

end model

namespace handler

/-- The collaborators of isAdmin whose bodies are not among the sources:
`GetTokenClaims` of package handler, and the text that the verb `%v` of
package fmt gives for a value that is neither nil nor a string. -/
structure Env where
  GetTokenClaims : http.Request → jwt.MapClaims
  formatValue : jwt.Value → String

/-- The call `fmt.Sprintf("%v", x)` on an interface value: a nil interface
prints as `<nil>`, a string as itself. -/
def Sprintf_v (e : Env) : Option jwt.Value → String
  | Option.none => "<nil>"
  | some (jwt.Value.string s) => s
  | some v => e.formatValue v

/-- Modelled from the spec: `SingleRecordExists` of package handler, which is
not among the sources (its sibling `RecordExists` of `common.go` is
`!db.Where(column+"= ?", val).First(t).RecordNotFound()`). A lookup of the
first row of the table whose column equals the value: when there is one it is
copied into the record and the result is true; otherwise the record is left
as it was and the result is false. The database is read, not written. -/
def SingleRecordExists (db : gorm.DB) (tableName column val : String) (t : model.User) :
    Bool × model.User × gorm.DB :=
  if tableName = model.UserTable ∧ column = model.UsernameColumn then
    match db.user.find? (fun u => u.Username == val) with
    | some u => (true, u, db)
    | Option.none => (false, t, db)
  else (false, t, db)

/-- The function isAdmin of `app/handler/admin.go`: its result and the database
afterwards. -/
def isAdmin (e : Env) (db : gorm.DB) (r : http.Request) : Bool × gorm.DB :=
  let claims := e.GetTokenClaims r
  let subject := Sprintf_v e (claims "sub")
  let user := model.NewUser
  match SingleRecordExists db model.UserTable model.UsernameColumn subject user with
  | (true, user, db) => (user.IsAdmin, db)
  | (false, _, db) => (false, db)

end handler

namespace sample

/-- A liveness store for the examples: the credentials recorded as live. -/
abbrev Redis : Type := List String

/-- A status object for the examples: its message. -/
abbrev Status : Type := String

/-- An ambient state for the examples: the number of round trips made to the
server of the liveness store. -/
abbrev Trips : Type := Nat

/-- The first value of the `Token` header, if any. -/
def token (r : http.Request) : Option String :=
  match r.Header "Token" with
  | some (t :: _) => some t
  | _ => none

/-- Collaborators for the examples: the credentials `tok-alice` and `tok-bob`
verify, without a round trip; a credential is live when the store lists it,
which costs one round trip. -/
def deps : app.Deps Redis Status Trips where
  VerifyJWT := fun r st => (token r == some "tok-alice" || token r == some "tok-bob", st)
  IsActiveToken := fun redis r st =>
    (match token r with
     | some t => redis.contains t
     | none => false,
     st + 1)
  New := ""
  Display := fun s => "message: " ++ s

def request (t : String) : http.Request :=
  { Header := fun k => if k = "Token" then some [t] else none }

/-- A request without a `Token` header. -/
def anonymous : http.Request := { Header := fun _ => none }

def users : gorm.DB :=
  { user := [{ Username := "root", IsApproved := true, IsAdmin := true },
             { Username := "bob", IsApproved := false, IsAdmin := false }] }

/-- A user table in which an admin record carries the username `<nil>`. -/
def usersWithNil : gorm.DB :=
  { user := [{ Username := "<nil>", IsApproved := true, IsAdmin := true }] }

/-- An application whose store lists only the credential of bob as live. -/
def application : app.App Redis := { db := users, redis := ["tok-bob"] }

/-- A response writer on which nothing was called yet. -/
def writer : http.ResponseWriter := { calls := [], writeFails := false }

/-- A business handler with a visible effect: it flips the approval of every
user and reports success. -/
def toggleAll : app.hdlr Redis Status Trips :=
  fun db redis w _ _ st =>
    { db := { user := db.user.map (fun u => { u with IsApproved := !u.IsApproved }) },
      redis := redis, w := w, s := "toggled", st := st, httpStatus := 200, err := none }

/-- A business handler that fails with an internal error text. -/
def failing : app.hdlr Redis Status Trips :=
  fun db redis w _ s st =>
    { db := db, redis := redis, w := w, s := s, st := st, httpStatus := 200,
      err := some "pq: relation user does not exist" }

/-- A business handler that returns without an error and leaves the status
code at the zero value of `int`. -/
def zeroStatus : app.hdlr Redis Status Trips :=
  fun db redis w _ _ st =>
    { db := db, redis := redis, w := w, s := "done", st := st, httpStatus := 0,
      err := none }

/-- The claims read from the examples' credentials: the subject is the text
after `tok-`. -/
def env : handler.Env where
  GetTokenClaims := fun r =>
    match token r with
    | some t => fun k => if k = "sub" then some (jwt.Value.string (t.drop 4)) else none
    | none => fun _ => none
  formatValue := fun _ => ""

/-- A stand-in for the library primitives, enough to issue and to read one
credential: the credential of alice issued at the epoch, and a copy of it
whose `alg` header was altered to RS256. Its verification of the methods
that are not HMAC accepts every signature. -/
def lib : jwt.Lib where
  decode := fun s =>
    if s = "h.c.AQID" then
      some { alg := some "HS256",
             Claims := fun k => (handler.issuedClaims 0 "alice" k).map
               (jwt.wire (fun _ => "1970-01-01T00:00:00Z")),
             signingString := "h.c", Signature := "AQID" }
    else if s = "r.c.AQID" then
      some { alg := some "RS256",
             Claims := fun k => (handler.issuedClaims 0 "alice" k).map
               (jwt.wire (fun _ => "1970-01-01T00:00:00Z")),
             signingString := "r.c", Signature := "AQID" }
    else none
  SigningString := fun alg _ =>
    if alg = "HS256" then Except.ok "h.c" else Except.error "json: unsupported value"
  EncodeSegment := fun b => if b = [1, 2, 3] then "AQID" else ""
  DecodeSegment := fun s => if s = "AQID" then some [1, 2, 3] else none
  hmac := fun _ key _ => if key = "2ofClubs" then [1, 2, 3] else [9]
  verifyOther := fun _ _ _ _ => true
  formatTime := fun _ => "1970-01-01T00:00:00Z"

end sample

/-! ## Response writing -/

/-- WriteData of `app.go` with a three-digit status code returns, and leaves
the status code and the data appended to the calls of the response writer,
whether or not the write fails. -/
theorem app.WriteData_valid (data : String) (code : Int) (w : http.ResponseWriter)
    (hcode : http.validWriteHeaderCode code = true) :
    (app.WriteData data code w).1 ≠ none ∧
    (app.WriteData data code w).2 =
      { calls := w.calls ++ [http.WriterCall.WriteHeader code, http.WriterCall.Write data],
        writeFails := w.writeFails } := by
  cases hw : w.writeFails <;> cases hh : w.wroteHeader <;>
    simp [app.WriteData, http.ResponseWriter.WriteHeader, http.ResponseWriter.Write, hw, hh,
      hcode]

/-- The response writer after WriteData of `app.go` with a three-digit code. -/
theorem app.WriteData_writer (data : String) (code : Int) (w : http.ResponseWriter)
    (hcode : http.validWriteHeaderCode code = true) :
    (app.WriteData data code w).2 =
      { calls := w.calls ++ [http.WriterCall.WriteHeader code, http.WriterCall.Write data],
        writeFails := w.writeFails } :=
  (app.WriteData_valid data code w hcode).2

/-- WriteData of `app.go` with a three-digit code does not panic. -/
theorem app.WriteData_returns (data : String) (code : Int) (w : http.ResponseWriter)
    (hcode : http.validWriteHeaderCode code = true) :
    (app.WriteData data code w).1.isNone = false := by
  have h := (app.WriteData_valid data code w hcode).1
  cases hx : (app.WriteData data code w).1 with
  | none => exact absurd hx h
  | some v => rfl

/-- WriteData of `app.go` on a response writer on which nothing was called,
with a code that has not three digits: `WriteHeader` panics and the writer is
left as it was. -/
theorem app.WriteData_invalid (data : String) (code : Int) (w : http.ResponseWriter)
    (hcode : http.validWriteHeaderCode code = false) (hfresh : w.calls = []) :
    app.WriteData data code w = (none, w) := by
  simp [app.WriteData, http.ResponseWriter.WriteHeader, http.ResponseWriter.wroteHeader,
    hfresh, hcode]

/-- WriteData of `common.go` with a three-digit status code returns, and
leaves the status code and the data appended to the calls. -/
theorem handler.WriteData_response (data : String) (code : Int) (w : http.ResponseWriter)
    (hcode : http.validWriteHeaderCode code = true) :
    ∃ n, handler.WriteData data code w =
      (some n,
        { calls := w.calls ++ [http.WriterCall.WriteHeader code, http.WriterCall.Write data],
          writeFails := w.writeFails }) := by
  cases hw : w.writeFails <;> cases hh : w.wroteHeader <;>
    simp [handler.WriteData, http.ResponseWriter.WriteHeader, http.ResponseWriter.Write, hw,
      hh, hcode]

/-- The two status codes the program itself passes have three digits. -/
theorem http.valid_401 : http.validWriteHeaderCode 401 = true := by decide

theorem http.valid_500 : http.validWriteHeaderCode 500 = true := by decide

/-! ## The authorization gate -/

/-- Recording the calls does not change what `Handle` does: the run with the
recording collaborators leaves the same database, store, response writer,
ambient state and panic flag as the run with the collaborators themselves. -/
theorem app.Handle_recording {Redis Status σ : Type}
    (d : app.Deps Redis Status σ) (a : app.App Redis) (h : app.hdlr Redis Status σ)
    (verifyRequest : Bool) (w : http.ResponseWriter) (r : http.Request) (st : σ)
    (log : List app.Call) :
    (app.Handle d.recording a (app.recording h) verifyRequest w r (st, log)).db =
      (app.Handle d a h verifyRequest w r st).db ∧
    (app.Handle d.recording a (app.recording h) verifyRequest w r (st, log)).redis =
      (app.Handle d a h verifyRequest w r st).redis ∧
    (app.Handle d.recording a (app.recording h) verifyRequest w r (st, log)).w =
      (app.Handle d a h verifyRequest w r st).w ∧
    (app.Handle d.recording a (app.recording h) verifyRequest w r (st, log)).st.1 =
      (app.Handle d a h verifyRequest w r st).st ∧
    (app.Handle d.recording a (app.recording h) verifyRequest w r (st, log)).panicked =
      (app.Handle d a h verifyRequest w r st).panicked := by
  cases verifyRequest
  · cases he : (h a.db a.redis w r d.New st).err <;>
      simp [app.Handle, app.Deps.recording, app.recording, he]
  · cases hv : (d.VerifyJWT r st).1
    · simp [app.Handle, app.Deps.recording, app.recording, hv]
    · cases hl : (d.IsActiveToken a.redis r (d.VerifyJWT r st).2).1
      · simp [app.Handle, app.Deps.recording, app.recording, hv, hl]
      · cases he : (h a.db a.redis w r d.New
            (d.IsActiveToken a.redis r (d.VerifyJWT r st).2).2).err <;>
          simp [app.Handle, app.Deps.recording, app.recording, hv, hl, he]

/-- The trace of a request on a protected route, by the answers of the two
checks. -/
theorem app.calls_protected {Redis Status σ : Type}
    (d : app.Deps Redis Status σ) (a : app.App Redis) (h : app.hdlr Redis Status σ)
    (w : http.ResponseWriter) (r : http.Request) (st : σ) :
    app.calls d a h true w r st =
      if (d.VerifyJWT r st).1 = true then
        if (d.IsActiveToken a.redis r (d.VerifyJWT r st).2).1 = true then
          [app.Call.VerifyJWT, app.Call.IsActiveToken, app.Call.h]
        else [app.Call.VerifyJWT, app.Call.IsActiveToken]
      else [app.Call.VerifyJWT] := by
  cases hv : (d.VerifyJWT r st).1
  · simp [app.calls, app.Handle, app.Deps.recording, app.recording, hv]
  · cases hl : (d.IsActiveToken a.redis r (d.VerifyJWT r st).2).1
    · simp [app.calls, app.Handle, app.Deps.recording, app.recording, hv, hl]
    · cases he : (h a.db a.redis w r d.New
          (d.IsActiveToken a.redis r (d.VerifyJWT r st).2).2).err <;>
        simp [app.calls, app.Handle, app.Deps.recording, app.recording, hv, hl, he]

/-- The trace of a request on an unprotected route. -/
theorem app.calls_unprotected {Redis Status σ : Type}
    (d : app.Deps Redis Status σ) (a : app.App Redis) (h : app.hdlr Redis Status σ)
    (w : http.ResponseWriter) (r : http.Request) (st : σ) :
    app.calls d a h false w r st = [app.Call.h] := by
  cases he : (h a.db a.redis w r d.New st).err <;>
    simp [app.calls, app.Handle, app.Deps.recording, app.recording, he]

/-- What `Handle` leaves for a denied request on a protected route. -/
theorem app.Handle_denied {Redis Status σ : Type}
    (d : app.Deps Redis Status σ) (a : app.App Redis) (h : app.hdlr Redis Status σ)
    (w : http.ResponseWriter) (r : http.Request) (st : σ)
    (hdeny : (d.VerifyJWT r st).1 = false ∨
      (d.IsActiveToken a.redis r (d.VerifyJWT r st).2).1 = false) :
    app.Handle d a h true w r st =
      { db := a.db, redis := a.redis,
        w := { calls := w.calls ++
                 [http.WriterCall.WriteHeader 401, http.WriterCall.Write "Unauthorized"],
               writeFails := w.writeFails },
        st := if (d.VerifyJWT r st).1 = true then
                (d.IsActiveToken a.redis r (d.VerifyJWT r st).2).2
              else (d.VerifyJWT r st).2,
        panicked := false } := by
  have hw := app.WriteData_writer "Unauthorized" 401 w http.valid_401
  have hp := app.WriteData_returns "Unauthorized" 401 w http.valid_401
  rcases hdeny with hv | hl
  · simp [app.Handle, hv, http.StatusText, http.StatusUnauthorized, hw, hp]
  · cases hv : (d.VerifyJWT r st).1 <;>
      simp [app.Handle, hv, hl, http.StatusText, http.StatusUnauthorized, hw, hp]

/-- What `Handle` leaves for an admitted request: the state the handler
left, and the response writer after WriteData of the handler's result. -/
theorem app.Handle_admitted {Redis Status σ : Type}
    (d : app.Deps Redis Status σ) (a : app.App Redis) (h : app.hdlr Redis Status σ)
    (verifyRequest : Bool) (w : http.ResponseWriter) (r : http.Request) (st : σ)
    (hopen : verifyRequest = false ∨
      ((d.VerifyJWT r st).1 = true ∧
       (d.IsActiveToken a.redis r (d.VerifyJWT r st).2).1 = true)) :
    (app.Handle d a h verifyRequest w r st).db =
      (app.handlerCall d a h verifyRequest w r st).db ∧
    (app.Handle d a h verifyRequest w r st).redis =
      (app.handlerCall d a h verifyRequest w r st).redis ∧
    (app.Handle d a h verifyRequest w r st).st =
      (app.handlerCall d a h verifyRequest w r st).st ∧
    (app.Handle d a h verifyRequest w r st).w =
      (match (app.handlerCall d a h verifyRequest w r st).err with
       | some _ => (app.WriteData "Internal Server Error" 500
                      (app.handlerCall d a h verifyRequest w r st).w).2
       | none => (app.WriteData (d.Display (app.handlerCall d a h verifyRequest w r st).s)
                    (app.handlerCall d a h verifyRequest w r st).httpStatus
                    (app.handlerCall d a h verifyRequest w r st).w).2) ∧
    (app.Handle d a h verifyRequest w r st).panicked =
      (match (app.handlerCall d a h verifyRequest w r st).err with
       | some _ => false
       | none => (app.WriteData (d.Display (app.handlerCall d a h verifyRequest w r st).s)
                    (app.handlerCall d a h verifyRequest w r st).httpStatus
                    (app.handlerCall d a h verifyRequest w r st).w).1.isNone) := by
  rcases hopen with hf | ⟨hv, hl⟩
  · subst hf
    cases he : (h a.db a.redis w r d.New st).err <;>
      simp [app.Handle, app.handlerCall, app.stateAtHandler, he, http.StatusText,
        http.StatusInternalServerError, app.WriteData_returns, http.valid_500]
  · cases verifyRequest
    · cases he : (h a.db a.redis w r d.New st).err <;>
        simp [app.Handle, app.handlerCall, app.stateAtHandler, he, http.StatusText,
          http.StatusInternalServerError, app.WriteData_returns, http.valid_500]
    · cases he : (h a.db a.redis w r d.New
          (d.IsActiveToken a.redis r (d.VerifyJWT r st).2).2).err <;>
        simp [app.Handle, app.handlerCall, app.stateAtHandler, hv, hl, he, http.StatusText,
          http.StatusInternalServerError, app.WriteData_returns, http.valid_500]

/-- C1: on a route wrapped as `Handle(h, true)`, when `VerifyJWT(r)` is false
or `IsActiveToken(redis, r)` is false the handler `h` is not in the trace of
the request (zero calls), the database and the liveness store are left as
they were, and the whole outcome is the same for every handler. -/
theorem Handle_denied_never_invokes_handler {Redis Status σ : Type}
    (d : app.Deps Redis Status σ) (a : app.App Redis) (h : app.hdlr Redis Status σ)
    (w : http.ResponseWriter) (r : http.Request) (st : σ)
    (hdeny : (d.VerifyJWT r st).1 = false ∨
      (d.IsActiveToken a.redis r (d.VerifyJWT r st).2).1 = false) :
    app.Call.h ∉ app.calls d a h true w r st ∧
    (app.calls d a h true w r st).count app.Call.h = 0 ∧
    (app.Handle d a h true w r st).db = a.db ∧
    (app.Handle d a h true w r st).redis = a.redis ∧
    ∀ h2 : app.hdlr Redis Status σ,
      app.Handle d a h2 true w r st = app.Handle d a h true w r st := by
  have hcalls := app.calls_protected d a h w r st
  refine ⟨?_, ?_, ?_, ?_, ?_⟩
  · rcases hdeny with hv | hl
    · simp [hcalls, hv]
    · cases hv : (d.VerifyJWT r st).1 <;> simp [hcalls, hv, hl]
  · rcases hdeny with hv | hl
    · simp [hcalls, hv]
    · cases hv : (d.VerifyJWT r st).1 <;> simp [hcalls, hv, hl]
  · rw [app.Handle_denied d a h w r st hdeny]
  · rw [app.Handle_denied d a h w r st hdeny]
  · intro h2
    rw [app.Handle_denied d a h w r st hdeny, app.Handle_denied d a h2 w r st hdeny]

theorem Handle_denied_never_invokes_handler_witness :
    ((sample.deps.VerifyJWT (sample.request "tok-alice") 0).1 = false ∨
      (sample.deps.IsActiveToken sample.application.redis (sample.request "tok-alice")
        (sample.deps.VerifyJWT (sample.request "tok-alice") 0).2).1 = false) ∧
    (app.Call.h ∉ app.calls sample.deps sample.application sample.toggleAll true
        sample.writer (sample.request "tok-alice") 0 ∧
    (app.calls sample.deps sample.application sample.toggleAll true
        sample.writer (sample.request "tok-alice") 0).count app.Call.h = 0 ∧
    (app.Handle sample.deps sample.application sample.toggleAll true
        sample.writer (sample.request "tok-alice") 0).db = sample.application.db ∧
    (app.Handle sample.deps sample.application sample.toggleAll true
        sample.writer (sample.request "tok-alice") 0).redis = sample.application.redis ∧
    ∀ h2 : app.hdlr sample.Redis sample.Status sample.Trips,
      app.Handle sample.deps sample.application h2 true sample.writer
          (sample.request "tok-alice") 0 =
        app.Handle sample.deps sample.application sample.toggleAll true sample.writer
          (sample.request "tok-alice") 0) :=
  ⟨Or.inr (by decide),
   Handle_denied_never_invokes_handler sample.deps sample.application sample.toggleAll
     sample.writer (sample.request "tok-alice") 0 (Or.inr (by decide))⟩

/-- C2, as the claim states it, fails: a request that carries a credential
which verifies and is live, for the subject bob who is not an admin, is not
denied. The wrapped handler is in the trace of the request, its effect on
the database is kept, and its status 200 is written. -/
theorem Handle_admits_non_admin :
    (sample.deps.VerifyJWT (sample.request "tok-bob") 0).1 = true ∧
    (sample.deps.IsActiveToken sample.application.redis (sample.request "tok-bob")
      (sample.deps.VerifyJWT (sample.request "tok-bob") 0).2).1 = true ∧
    (handler.isAdmin sample.env sample.application.db (sample.request "tok-bob")).1 = false ∧
    app.Call.h ∈ app.calls sample.deps sample.application sample.toggleAll true
        sample.writer (sample.request "tok-bob") 0 ∧
    (app.Handle sample.deps sample.application sample.toggleAll true
        sample.writer (sample.request "tok-bob") 0).db ≠ sample.application.db ∧
    (app.Handle sample.deps sample.application sample.toggleAll true
        sample.writer (sample.request "tok-bob") 0).w.calls =
      [http.WriterCall.WriteHeader 200, http.WriterCall.Write "message: toggled"] := by
  decide

/-- C2, amended: for a request to a route wrapped as `Handle(h, true)` whose
credential verifies and is live while isAdmin is false for it, `Handle`
makes no role check: the trace is VerifyJWT, IsActiveToken and then the
handler, exactly once, the handler's database and store are kept, and the
response writer is the one WriteData leaves for the handler's result. -/
theorem Handle_makes_no_role_check {Redis Status σ : Type}
    (d : app.Deps Redis Status σ) (a : app.App Redis) (h : app.hdlr Redis Status σ)
    (w : http.ResponseWriter) (r : http.Request) (st : σ) (e : handler.Env)
    (hv : (d.VerifyJWT r st).1 = true)
    (hl : (d.IsActiveToken a.redis r (d.VerifyJWT r st).2).1 = true)
    (_hna : (handler.isAdmin e a.db r).1 = false) :
    app.calls d a h true w r st =
      [app.Call.VerifyJWT, app.Call.IsActiveToken, app.Call.h] ∧
    (app.calls d a h true w r st).count app.Call.h = 1 ∧
    (app.Handle d a h true w r st).db = (app.handlerCall d a h true w r st).db ∧
    (app.Handle d a h true w r st).redis = (app.handlerCall d a h true w r st).redis ∧
    (app.Handle d a h true w r st).w =
      (match (app.handlerCall d a h true w r st).err with
       | some _ => (app.WriteData "Internal Server Error" 500
                      (app.handlerCall d a h true w r st).w).2
       | none => (app.WriteData (d.Display (app.handlerCall d a h true w r st).s)
                    (app.handlerCall d a h true w r st).httpStatus
                    (app.handlerCall d a h true w r st).w).2) := by
  have hadm := app.Handle_admitted d a h true w r st (Or.inr ⟨hv, hl⟩)
  have hcalls := app.calls_protected d a h w r st
  refine ⟨?_, ?_, hadm.1, hadm.2.1, hadm.2.2.2.1⟩
  · simp [hcalls, hv, hl]
  · simp [hcalls, hv, hl]

theorem Handle_makes_no_role_check_witness :
    (sample.deps.VerifyJWT (sample.request "tok-bob") 0).1 = true ∧
    (sample.deps.IsActiveToken sample.application.redis (sample.request "tok-bob")
      (sample.deps.VerifyJWT (sample.request "tok-bob") 0).2).1 = true ∧
    (handler.isAdmin sample.env sample.application.db (sample.request "tok-bob")).1 = false ∧
    (app.calls sample.deps sample.application sample.toggleAll true sample.writer
        (sample.request "tok-bob") 0).count app.Call.h = 1 :=
  ⟨by decide, by decide, by decide,
   (Handle_makes_no_role_check sample.deps sample.application sample.toggleAll sample.writer
     (sample.request "tok-bob") 0 sample.env (by decide) (by decide) (by decide)).2.1⟩

/-- C3, as the claim states it, fails: a handler on an unprotected route
returns a nil error and the status 0, for which `WriteHeader` panics. Nothing
is written: not the status, and not the body `s.Display()`. -/
theorem Handle_panics_on_zero_status :
    (app.handlerCall sample.deps sample.application sample.zeroStatus false sample.writer
        sample.anonymous 0).err = none ∧
    (app.handlerCall sample.deps sample.application sample.zeroStatus false sample.writer
        sample.anonymous 0).httpStatus = 0 ∧
    (app.Handle sample.deps sample.application sample.zeroStatus false sample.writer
        sample.anonymous 0).panicked = true ∧
    (app.Handle sample.deps sample.application sample.zeroStatus false sample.writer
        sample.anonymous 0).w.calls = [] ∧
    (app.Handle sample.deps sample.application sample.zeroStatus false sample.writer
        sample.anonymous 0).w.calls ≠
      (app.handlerCall sample.deps sample.application sample.zeroStatus false sample.writer
          sample.anonymous 0).w.calls ++
        [http.WriterCall.WriteHeader 0,
         http.WriterCall.Write (sample.deps.Display
           (app.handlerCall sample.deps sample.application sample.zeroStatus false
             sample.writer sample.anonymous 0).s)] := by
  decide

/-- C3, amended: for every admitted request, on an unprotected route or on a
protected route with `VerifyJWT` and `IsActiveToken` both true, and every
handler result: when err is non-nil, Handle writes status 500 and the fixed
body `Internal Server Error` after whatever the handler wrote, whatever the
error text, httpStatus and status object are; when err is nil and the
handler-supplied httpStatus is a code from 100 to 999, Handle writes that
httpStatus and the body `s.Display()`. In both cases Handle returns without
a panic. -/
theorem Handle_encodes_handler_result {Redis Status σ : Type}
    (d : app.Deps Redis Status σ) (a : app.App Redis) (h : app.hdlr Redis Status σ)
    (verifyRequest : Bool) (w : http.ResponseWriter) (r : http.Request) (st : σ)
    (hopen : verifyRequest = false ∨
      ((d.VerifyJWT r st).1 = true ∧
       (d.IsActiveToken a.redis r (d.VerifyJWT r st).2).1 = true)) :
    ((app.handlerCall d a h verifyRequest w r st).err ≠ none →
      (app.Handle d a h verifyRequest w r st).w.calls =
        (app.handlerCall d a h verifyRequest w r st).w.calls ++
          [http.WriterCall.WriteHeader 500, http.WriterCall.Write "Internal Server Error"] ∧
      (app.Handle d a h verifyRequest w r st).panicked = false) ∧
    ((app.handlerCall d a h verifyRequest w r st).err = none →
      100 ≤ (app.handlerCall d a h verifyRequest w r st).httpStatus →
      (app.handlerCall d a h verifyRequest w r st).httpStatus ≤ 999 →
      (app.Handle d a h verifyRequest w r st).w.calls =
        (app.handlerCall d a h verifyRequest w r st).w.calls ++
          [http.WriterCall.WriteHeader (app.handlerCall d a h verifyRequest w r st).httpStatus,
           http.WriterCall.Write
             (d.Display (app.handlerCall d a h verifyRequest w r st).s)] ∧
      (app.Handle d a h verifyRequest w r st).panicked = false) := by
  obtain ⟨_, _, _, hw, hp⟩ := app.Handle_admitted d a h verifyRequest w r st hopen
  constructor
  · intro he
    cases hx : (app.handlerCall d a h verifyRequest w r st).err with
    | none => exact absurd hx he
    | some v =>
      rw [hx] at hw hp
      simp only at hw hp
      rw [hw, hp, app.WriteData_writer _ _ _ http.valid_500]
      exact ⟨rfl, rfl⟩
  · intro he hlo hhi
    have hcode : http.validWriteHeaderCode
        (app.handlerCall d a h verifyRequest w r st).httpStatus = true := by
      simp [http.validWriteHeaderCode, hlo, hhi]
    rw [he] at hw hp
    simp only at hw hp
    rw [hw, hp, app.WriteData_writer _ _ _ hcode, app.WriteData_returns _ _ _ hcode]
    exact ⟨rfl, rfl⟩

theorem Handle_encodes_handler_result_witness :
    (true = false ∨
      ((sample.deps.VerifyJWT (sample.request "tok-bob") 0).1 = true ∧
       (sample.deps.IsActiveToken sample.application.redis (sample.request "tok-bob")
         (sample.deps.VerifyJWT (sample.request "tok-bob") 0).2).1 = true)) ∧
    (app.handlerCall sample.deps sample.application sample.toggleAll true sample.writer
        (sample.request "tok-bob") 0).err = none ∧
    100 ≤ (app.handlerCall sample.deps sample.application sample.toggleAll true sample.writer
        (sample.request "tok-bob") 0).httpStatus ∧
    (app.handlerCall sample.deps sample.application sample.toggleAll true sample.writer
        (sample.request "tok-bob") 0).httpStatus ≤ 999 ∧
    ((app.Handle sample.deps sample.application sample.toggleAll true sample.writer
        (sample.request "tok-bob") 0).w.calls =
      (app.handlerCall sample.deps sample.application sample.toggleAll true sample.writer
          (sample.request "tok-bob") 0).w.calls ++
        [http.WriterCall.WriteHeader
           (app.handlerCall sample.deps sample.application sample.toggleAll true sample.writer
             (sample.request "tok-bob") 0).httpStatus,
         http.WriterCall.Write
           (sample.deps.Display
             (app.handlerCall sample.deps sample.application sample.toggleAll true
               sample.writer (sample.request "tok-bob") 0).s)] ∧
    (app.Handle sample.deps sample.application sample.toggleAll true sample.writer
        (sample.request "tok-bob") 0).panicked = false) :=
  ⟨Or.inr ⟨by decide, by decide⟩, by decide, by decide, by decide,
   (Handle_encodes_handler_result sample.deps sample.application sample.toggleAll true
     sample.writer (sample.request "tok-bob") 0 (Or.inr ⟨by decide, by decide⟩)).2
     (by decide) (by decide) (by decide)⟩

/-- C4: every request denied by `Handle(h, true)` gets status 401 and the
fixed body `Unauthorized` appended to the response writer and nothing else,
without a panic; two denied runs, whether the denial comes from VerifyJWT
being false or from IsActiveToken being false, and whatever the requests,
handlers, stores, ambient states and collaborators are, leave the same
response. -/
theorem Handle_denials_indistinguishable {Redis Status σ : Type}
    (d1 d2 : app.Deps Redis Status σ) (a1 a2 : app.App Redis)
    (h1 h2 : app.hdlr Redis Status σ)
    (w : http.ResponseWriter) (r1 r2 : http.Request) (st1 st2 : σ)
    (hdeny1 : (d1.VerifyJWT r1 st1).1 = false ∨
      (d1.IsActiveToken a1.redis r1 (d1.VerifyJWT r1 st1).2).1 = false)
    (hdeny2 : (d2.VerifyJWT r2 st2).1 = false ∨
      (d2.IsActiveToken a2.redis r2 (d2.VerifyJWT r2 st2).2).1 = false) :
    (app.Handle d1 a1 h1 true w r1 st1).w.calls =
      w.calls ++ [http.WriterCall.WriteHeader 401, http.WriterCall.Write "Unauthorized"] ∧
    (app.Handle d1 a1 h1 true w r1 st1).w.writeFails = w.writeFails ∧
    (app.Handle d1 a1 h1 true w r1 st1).panicked = false ∧
    (app.Handle d1 a1 h1 true w r1 st1).w = (app.Handle d2 a2 h2 true w r2 st2).w := by
  rw [app.Handle_denied d1 a1 h1 w r1 st1 hdeny1, app.Handle_denied d2 a2 h2 w r2 st2 hdeny2]
  exact ⟨rfl, rfl, rfl, rfl⟩

theorem Handle_denials_indistinguishable_witness :
    ((sample.deps.VerifyJWT sample.anonymous 0).1 = false ∨
      (sample.deps.IsActiveToken sample.application.redis sample.anonymous
        (sample.deps.VerifyJWT sample.anonymous 0).2).1 = false) ∧
    ((sample.deps.VerifyJWT (sample.request "tok-alice") 7).1 = false ∨
      (sample.deps.IsActiveToken sample.application.redis (sample.request "tok-alice")
        (sample.deps.VerifyJWT (sample.request "tok-alice") 7).2).1 = false) ∧
    (sample.deps.VerifyJWT (sample.request "tok-alice") 7).1 = true ∧
    ((app.Handle sample.deps sample.application sample.toggleAll true sample.writer
        sample.anonymous 0).w.calls =
      sample.writer.calls ++
        [http.WriterCall.WriteHeader 401, http.WriterCall.Write "Unauthorized"] ∧
    (app.Handle sample.deps sample.application sample.toggleAll true sample.writer
        sample.anonymous 0).w.writeFails = sample.writer.writeFails ∧
    (app.Handle sample.deps sample.application sample.toggleAll true sample.writer
        sample.anonymous 0).panicked = false ∧
    (app.Handle sample.deps sample.application sample.toggleAll true sample.writer
        sample.anonymous 0).w =
      (app.Handle sample.deps sample.application sample.failing true sample.writer
        (sample.request "tok-alice") 7).w) :=
  ⟨Or.inl (by decide), Or.inr (by decide), by decide,
   Handle_denials_indistinguishable sample.deps sample.deps sample.application
     sample.application sample.toggleAll sample.failing sample.writer sample.anonymous
     (sample.request "tok-alice") 0 7 (Or.inl (by decide)) (Or.inr (by decide))⟩

/-- C5: on a route wrapped as `Handle(h, false)`, for every request, with or
without a credential header, the trace is the handler alone (invoked exactly
once; VerifyJWT and IsActiveToken are not called, and replacing them by any
other functions changes nothing), and the response writer is the one
WriteData leaves for the handler's result, not the 401 of the denial: the
calls appended are 500 and `Internal Server Error` for a non-nil err, and the
handler's httpStatus and `s.Display()` for a nil err and a three-digit
httpStatus; whereas the same request without a credential that verifies and
is live, on `Handle(h, true)`, gets status 401 and the body `Unauthorized`. -/
theorem Handle_unprotected_admits {Redis Status σ : Type}
    (d : app.Deps Redis Status σ) (a : app.App Redis) (h : app.hdlr Redis Status σ)
    (w : http.ResponseWriter) (r : http.Request) (st : σ) :
    app.calls d a h false w r st = [app.Call.h] ∧
    (app.calls d a h false w r st).count app.Call.h = 1 ∧
    (∀ (vj : http.Request → σ → Bool × σ) (ia : Redis → http.Request → σ → Bool × σ),
      app.Handle { d with VerifyJWT := vj, IsActiveToken := ia } a h false w r st =
        app.Handle d a h false w r st) ∧
    (app.Handle d a h false w r st).st = (h a.db a.redis w r d.New st).st ∧
    (app.Handle d a h false w r st).w =
      (match (h a.db a.redis w r d.New st).err with
       | some _ => (app.WriteData "Internal Server Error" 500 (h a.db a.redis w r d.New st).w).2
       | none => (app.WriteData (d.Display (h a.db a.redis w r d.New st).s)
                    (h a.db a.redis w r d.New st).httpStatus
                    (h a.db a.redis w r d.New st).w).2) ∧
    (((h a.db a.redis w r d.New st).err ≠ none ∨
        http.validWriteHeaderCode (h a.db a.redis w r d.New st).httpStatus = true) →
      (app.Handle d a h false w r st).w.calls =
        (h a.db a.redis w r d.New st).w.calls ++
          (match (h a.db a.redis w r d.New st).err with
           | some _ =>
             [http.WriterCall.WriteHeader 500, http.WriterCall.Write "Internal Server Error"]
           | none =>
             [http.WriterCall.WriteHeader (h a.db a.redis w r d.New st).httpStatus,
              http.WriterCall.Write (d.Display (h a.db a.redis w r d.New st).s)])) ∧
    (((d.VerifyJWT r st).1 = false ∨
        (d.IsActiveToken a.redis r (d.VerifyJWT r st).2).1 = false) →
      (app.Handle d a h true w r st).w.calls =
        w.calls ++ [http.WriterCall.WriteHeader 401, http.WriterCall.Write "Unauthorized"]) := by
  have hadm := app.Handle_admitted d a h false w r st (Or.inl rfl)
  simp only [app.handlerCall, app.stateAtHandler, Bool.false_eq_true, if_false] at hadm
  refine ⟨app.calls_unprotected d a h w r st, ?_, ?_, hadm.2.2.1, hadm.2.2.2.1, ?_, ?_⟩
  · simp [app.calls_unprotected d a h w r st]
  · intro vj ia
    simp [app.Handle]
  · intro hcond
    rw [hadm.2.2.2.1]
    cases he : (h a.db a.redis w r d.New st).err with
    | some v => simp [app.WriteData_writer _ _ _ http.valid_500]
    | none =>
      rcases hcond with hne | hcode
      · exact absurd he hne
      · simp [app.WriteData_writer _ _ _ hcode]
  · intro hdeny
    rw [app.Handle_denied d a h w r st hdeny]

theorem Handle_unprotected_admits_witness :
    (sample.deps.VerifyJWT sample.anonymous 0).1 = false ∧
    app.calls sample.deps sample.application sample.toggleAll false sample.writer
        sample.anonymous 0 = [app.Call.h] ∧
    (app.Handle sample.deps sample.application sample.toggleAll false sample.writer
        sample.anonymous 0).w.calls =
      [http.WriterCall.WriteHeader 200, http.WriterCall.Write "message: toggled"] ∧
    (app.Handle sample.deps sample.application sample.toggleAll true sample.writer
        sample.anonymous 0).w.calls =
      sample.writer.calls ++
        [http.WriterCall.WriteHeader 401, http.WriterCall.Write "Unauthorized"] :=
  ⟨by decide,
   (Handle_unprotected_admits sample.deps sample.application sample.toggleAll sample.writer
     sample.anonymous 0).1,
   by decide,
   (Handle_unprotected_admits sample.deps sample.application sample.toggleAll sample.writer
     sample.anonymous 0).2.2.2.2.2.2 (Or.inl (by decide))⟩

/-- C6: in `Handle(h, true)`, for every request and whatever the two checks
do to the ambient state, VerifyJWT is called first, on the state of the
request, and once. IsActiveToken is called only when VerifyJWT answered
true, and then on the state that VerifyJWT left: the trace goes on with
IsActiveToken, and a denial for liveness leaves the state that IsActiveToken
made of it. When VerifyJWT answers false the trace is VerifyJWT alone,
IsActiveToken is not in it, the state left is the one VerifyJWT left, and the
outcome is the same whatever function IsActiveToken is. -/
theorem Handle_verifies_before_liveness {Redis Status σ : Type}
    (d : app.Deps Redis Status σ) (a : app.App Redis) (h : app.hdlr Redis Status σ)
    (w : http.ResponseWriter) (r : http.Request) (st : σ) :
    (∃ rest, app.calls d a h true w r st = app.Call.VerifyJWT :: rest ∧
      app.Call.VerifyJWT ∉ rest) ∧
    ((d.VerifyJWT r st).1 = false →
      app.calls d a h true w r st = [app.Call.VerifyJWT] ∧
      app.Call.IsActiveToken ∉ app.calls d a h true w r st ∧
      (app.Handle d a h true w r st).st = (d.VerifyJWT r st).2 ∧
      ∀ ia : Redis → http.Request → σ → Bool × σ,
        app.Handle { d with IsActiveToken := ia } a h true w r st =
          app.Handle d a h true w r st) ∧
    ((d.VerifyJWT r st).1 = true →
      (∃ rest, app.calls d a h true w r st =
          app.Call.VerifyJWT :: app.Call.IsActiveToken :: rest ∧
        app.Call.IsActiveToken ∉ rest) ∧
      ((d.IsActiveToken a.redis r (d.VerifyJWT r st).2).1 = false →
        (app.Handle d a h true w r st).st =
          (d.IsActiveToken a.redis r (d.VerifyJWT r st).2).2) ∧
      ((d.IsActiveToken a.redis r (d.VerifyJWT r st).2).1 = true →
        (app.Handle d a h true w r st).st =
          (h a.db a.redis w r d.New (d.IsActiveToken a.redis r (d.VerifyJWT r st).2).2).st)) := by
  have hcalls := app.calls_protected d a h w r st
  refine ⟨?_, ?_, ?_⟩
  · cases hv : (d.VerifyJWT r st).1 <;>
      cases hl : (d.IsActiveToken a.redis r (d.VerifyJWT r st).2).1 <;>
      simp [hcalls, hv, hl]
  · intro hv
    refine ⟨by simp [hcalls, hv], by simp [hcalls, hv], ?_, ?_⟩
    · rw [app.Handle_denied d a h w r st (Or.inl hv)]
      simp [hv]
    · intro ia
      simp [app.Handle, hv]
  · intro hv
    refine ⟨?_, ?_, ?_⟩
    · cases hl : (d.IsActiveToken a.redis r (d.VerifyJWT r st).2).1 <;>
        simp [hcalls, hv, hl]
    · intro hl
      rw [app.Handle_denied d a h w r st (Or.inr hl)]
      simp [hv]
    · intro hl
      have hadm := app.Handle_admitted d a h true w r st (Or.inr ⟨hv, hl⟩)
      simpa [app.handlerCall, app.stateAtHandler] using hadm.2.2.1

theorem Handle_verifies_before_liveness_witness :
    (sample.deps.VerifyJWT (sample.request "tok-alice") 0).1 = true ∧
    (sample.deps.IsActiveToken sample.application.redis (sample.request "tok-alice")
      (sample.deps.VerifyJWT (sample.request "tok-alice") 0).2).1 = false ∧
    app.calls sample.deps sample.application sample.toggleAll true sample.writer
        (sample.request "tok-alice") 0 = [app.Call.VerifyJWT, app.Call.IsActiveToken] ∧
    (app.Handle sample.deps sample.application sample.toggleAll true sample.writer
        (sample.request "tok-alice") 0).st =
      (sample.deps.IsActiveToken sample.application.redis (sample.request "tok-alice")
        (sample.deps.VerifyJWT (sample.request "tok-alice") 0).2).2 ∧
    (sample.deps.VerifyJWT sample.anonymous 0).1 = false ∧
    (app.calls sample.deps sample.application sample.toggleAll true sample.writer
        sample.anonymous 0 = [app.Call.VerifyJWT] ∧
    app.Call.IsActiveToken ∉ app.calls sample.deps sample.application sample.toggleAll true
        sample.writer sample.anonymous 0 ∧
    (app.Handle sample.deps sample.application sample.toggleAll true sample.writer
        sample.anonymous 0).st = (sample.deps.VerifyJWT sample.anonymous 0).2 ∧
    ∀ ia : sample.Redis → http.Request → sample.Trips → Bool × sample.Trips,
      app.Handle { sample.deps with IsActiveToken := ia } sample.application sample.toggleAll
          true sample.writer sample.anonymous 0 =
        app.Handle sample.deps sample.application sample.toggleAll true sample.writer
          sample.anonymous 0) :=
  ⟨by decide, by decide, by decide,
   ((Handle_verifies_before_liveness sample.deps sample.application sample.toggleAll
     sample.writer (sample.request "tok-alice") 0).2.2 (by decide)).2.1 (by decide),
   by decide,
   (Handle_verifies_before_liveness sample.deps sample.application sample.toggleAll
     sample.writer sample.anonymous 0).2.1 (by decide)⟩

/-! ## Credentials -/

/-- The Unix second of a clock reading does not decrease with the reading. -/
theorem time.Unix_mono (a b : Nat) (h : a ≤ b) : time.Time.Unix a ≤ time.Time.Unix b := by
  simp only [time.Time.Unix, time.Second]
  omega

/-- A full second later the Unix second is greater. -/
theorem time.Unix_lt (a b : Nat) (h : a + time.Second ≤ b) :
    time.Time.Unix a < time.Time.Unix b := by
  simp only [time.Time.Unix, time.Second] at *
  omega

/-- C8, as the claim states it, fails: the credential issued for alice at the
epoch is still accepted by the verifier at the epoch plus five minutes, a
time at which the claim has it rejected as expired. -/
theorem GenerateJWT_accepted_at_expiry :
    handler.GenerateJWT sample.lib 0 "alice" = ("h.c.AQID", none) ∧
    (0 : time.Time) + time.Minute * 5 ≤ 300000000000 ∧
    handler.IsValidJWT sample.lib 300000000000 sample.writer (sample.request "h.c.AQID") =
      some (true, sample.writer) := by
  decide

/-- The three claims that GenerateJWT sets, as the verifier reads them back. -/
theorem handler.issuedClaims_wire (fmt : time.Time → String) (sysTime : time.Time)
    (subject : String) :
    (handler.issuedClaims sysTime subject "exp").map (jwt.wire fmt) =
      some (jwt.Value.number (time.Time.Unix (sysTime + time.Minute * 5))) ∧
    (handler.issuedClaims sysTime subject "iat").map (jwt.wire fmt) =
      some (jwt.Value.string (fmt sysTime)) ∧
    (handler.issuedClaims sysTime subject "nbf").map (jwt.wire fmt) = none := by
  refine ⟨?_, ?_, ?_⟩ <;>
    simp [handler.issuedClaims, jwt.MapClaims.set, jwt.wire, time.Time.Add]

/-- C8, amended: when the library can marshal the claims and reads back the
string it produced, the credential GenerateJWT returns for a subject at
clock reading sysTime carries that subject as `sub` and the Unix second of
sysTime plus five minutes as `exp`, and is signed with HS256 under the
secret that kf hands to the verifier. IsValidJWT accepts it exactly while
the Unix second of the clock is at most `exp`: at every time up to and
including sysTime plus five minutes, and it rejects it as expired at every
time from sysTime plus five minutes and one second on. -/
theorem GenerateJWT_valid_until_expiry (lib : jwt.Lib) (sysTime : time.Time)
    (subject sstr : String)
    (hs : lib.SigningString "HS256" (handler.issuedClaims sysTime subject) = Except.ok sstr)
    (hd : lib.decode (sstr ++ "." ++ lib.SignHMAC jwt.SigningMethod.HS256 sstr "2ofClubs") =
      some { alg := some "HS256",
             Claims := fun k => (handler.issuedClaims sysTime subject k).map
               (jwt.wire lib.formatTime),
             signingString := sstr,
             Signature := lib.SignHMAC jwt.SigningMethod.HS256 sstr "2ofClubs" })
    (hb : lib.DecodeSegment (lib.EncodeSegment (lib.hmac jwt.SigningMethod.HS256 "2ofClubs" sstr)) =
      some (lib.hmac jwt.SigningMethod.HS256 "2ofClubs" sstr)) :
    handler.GenerateJWT lib sysTime subject =
      (sstr ++ "." ++ lib.SignHMAC jwt.SigningMethod.HS256 sstr "2ofClubs", none) ∧
    handler.issuedClaims sysTime subject "sub" = some (jwt.Value.string subject) ∧
    handler.issuedClaims sysTime subject "exp" =
      some (jwt.Value.number (time.Time.Unix (sysTime + time.Minute * 5))) ∧
    ∀ (now : time.Time) (w : http.ResponseWriter) (r : http.Request) (rest : List String),
      r.Header "Token" = some ((handler.GenerateJWT lib sysTime subject).1 :: rest) →
      (handler.IsValidJWT lib now w r = some (true, w) ↔
        time.Time.Unix now ≤ time.Time.Unix (sysTime + time.Minute * 5)) ∧
      (now ≤ sysTime + time.Minute * 5 → handler.IsValidJWT lib now w r = some (true, w)) ∧
      (sysTime + time.Minute * 5 + time.Second ≤ now →
        (jwt.Parse lib now (handler.GenerateJWT lib sysTime subject).1 handler.kf).2 =
          some [jwt.ErrorFlag.Expired] ∧
        handler.IsValidJWT lib now w r =
          some (false,
            { calls := w.calls ++
                [http.WriterCall.WriteHeader 401, http.WriterCall.Write "Unauthorized"],
              writeFails := w.writeFails })) := by
  have hgen : handler.GenerateJWT lib sysTime subject =
      (sstr ++ "." ++ lib.SignHMAC jwt.SigningMethod.HS256 sstr "2ofClubs", none) := by
    simp [handler.GenerateJWT, jwt.SigningMethod.Alg, hs]
  obtain ⟨hexp, hiat, hnbf⟩ := handler.issuedClaims_wire lib.formatTime sysTime subject
  have hpos : time.Time.Unix (sysTime + time.Minute * 5) ≠ 0 := by
    simp only [time.Time.Unix, time.Minute, time.Second]
    omega
  have hver : lib.Verify jwt.SigningMethod.HS256 sstr
      (lib.SignHMAC jwt.SigningMethod.HS256 sstr "2ofClubs") (some "2ofClubs") = true := by
    simp [jwt.Lib.Verify, jwt.SigningMethod.isHMAC, jwt.Lib.SignHMAC, hb]
  -- the parse of the issued credential at any clock reading
  have hparse : ∀ now : time.Time,
      jwt.Parse lib now (sstr ++ "." ++ lib.SignHMAC jwt.SigningMethod.HS256 sstr "2ofClubs")
          handler.kf =
        if time.Time.Unix now ≤ time.Time.Unix (sysTime + time.Minute * 5) then
          (some { Raw := sstr ++ "." ++ lib.SignHMAC jwt.SigningMethod.HS256 sstr "2ofClubs",
                  Method := jwt.SigningMethod.HS256,
                  Claims := fun k => (handler.issuedClaims sysTime subject k).map
                    (jwt.wire lib.formatTime),
                  Signature := lib.SignHMAC jwt.SigningMethod.HS256 sstr "2ofClubs",
                  Valid := true }, none)
        else
          (some { Raw := sstr ++ "." ++ lib.SignHMAC jwt.SigningMethod.HS256 sstr "2ofClubs",
                  Method := jwt.SigningMethod.HS256,
                  Claims := fun k => (handler.issuedClaims sysTime subject k).map
                    (jwt.wire lib.formatTime),
                  Signature := lib.SignHMAC jwt.SigningMethod.HS256 sstr "2ofClubs",
                  Valid := false }, some [jwt.ErrorFlag.Expired]) := by
    intro now
    by_cases hle : time.Time.Unix now ≤ time.Time.Unix (sysTime + time.Minute * 5) <;>
      simp [jwt.Parse, hd, jwt.GetSigningMethod, handler.kf, jwt.SigningMethod.isHMAC, hver,
        jwt.MapClaims.Valid, jwt.MapClaims.VerifyExpiresAt, jwt.MapClaims.VerifyIssuedAt,
        jwt.MapClaims.VerifyNotBefore, hexp, hiat, hnbf, jwt.verifyExp, hpos, hle]
  refine ⟨hgen, ?_, ?_, ?_⟩
  · simp [handler.issuedClaims, jwt.MapClaims.set]
  · simp [handler.issuedClaims, jwt.MapClaims.set, time.Time.Add]
  · intro now w r rest hr
    rw [hgen] at hr ⊢
    simp only at hr ⊢
    have hacc : time.Time.Unix now ≤ time.Time.Unix (sysTime + time.Minute * 5) →
        handler.IsValidJWT lib now w r = some (true, w) := by
      intro hle
      simp [handler.IsValidJWT, hr, hparse now, hle]
    have hrej : ¬ time.Time.Unix now ≤ time.Time.Unix (sysTime + time.Minute * 5) →
        handler.IsValidJWT lib now w r =
          some (false,
            { calls := w.calls ++
                [http.WriterCall.WriteHeader 401, http.WriterCall.Write "Unauthorized"],
              writeFails := w.writeFails }) := by
      intro hgt
      obtain ⟨n, hn⟩ := handler.WriteData_response "Unauthorized" 401 w http.valid_401
      simp [handler.IsValidJWT, hr, hparse now, hgt, hn, http.StatusUnauthorized]
    refine ⟨⟨?_, hacc⟩, ?_, ?_⟩
    · intro hok
      by_contra hgt
      rw [hrej hgt] at hok
      simp at hok
    · intro hle
      apply hacc
      exact time.Unix_mono now (sysTime + time.Minute * 5) hle
    · intro hge
      have hgt : ¬ time.Time.Unix now ≤ time.Time.Unix (sysTime + time.Minute * 5) :=
        not_le.mpr (time.Unix_lt (sysTime + time.Minute * 5) now hge)
      exact ⟨by rw [hparse now, if_neg hgt], hrej hgt⟩

theorem GenerateJWT_valid_until_expiry_witness :
    sample.lib.SigningString "HS256" (handler.issuedClaims 0 "alice") = Except.ok "h.c" ∧
    sample.lib.decode ("h.c" ++ "." ++ sample.lib.SignHMAC jwt.SigningMethod.HS256 "h.c" "2ofClubs") =
      some { alg := some "HS256",
             Claims := fun k => (handler.issuedClaims 0 "alice" k).map
               (jwt.wire sample.lib.formatTime),
             signingString := "h.c",
             Signature := sample.lib.SignHMAC jwt.SigningMethod.HS256 "h.c" "2ofClubs" } ∧
    sample.lib.DecodeSegment
        (sample.lib.EncodeSegment (sample.lib.hmac jwt.SigningMethod.HS256 "2ofClubs" "h.c")) =
      some (sample.lib.hmac jwt.SigningMethod.HS256 "2ofClubs" "h.c") ∧
    handler.GenerateJWT sample.lib 0 "alice" =
      ("h.c" ++ "." ++ sample.lib.SignHMAC jwt.SigningMethod.HS256 "h.c" "2ofClubs", none) ∧
    (handler.IsValidJWT sample.lib (4 * time.Minute) sample.writer (sample.request "h.c.AQID") =
        some (true, sample.writer) ↔
      time.Time.Unix (4 * time.Minute) ≤ time.Time.Unix (0 + time.Minute * 5)) :=
  ⟨rfl, rfl, by decide,
   (GenerateJWT_valid_until_expiry sample.lib 0 "alice" "h.c" rfl rfl (by decide)).1,
   ((GenerateJWT_valid_until_expiry sample.lib 0 "alice" "h.c" rfl rfl
      (by decide)).2.2.2 (4 * time.Minute) sample.writer (sample.request "h.c.AQID") []
      (by decide)).1⟩

/-- The two ways a parse ends: with a token marked valid and no error, or
with an error. -/
theorem jwt.Parse_cases (lib : jwt.Lib) (now : time.Time) (tokenString : String)
    (keyFunc : jwt.Keyfunc) :
    (∃ t, jwt.Parse lib now tokenString keyFunc = (some t, none) ∧ t.Valid = true) ∨
    (∃ ot e, jwt.Parse lib now tokenString keyFunc = (ot, some e)) := by
  unfold jwt.Parse
  repeat' first
    | split
    | dsimp only
  all_goals first
    | exact Or.inl ⟨_, rfl, rfl⟩
    | exact Or.inr ⟨_, _, rfl⟩

/-- The key function on a token by the family of its method. -/
theorem handler.kf_eq (token : jwt.Token) :
    handler.kf token =
      if token.Method.isHMAC = true then (some "2ofClubs", none)
      else (none, some "an error occured") := by
  cases h : token.Method.isHMAC <;> simp [handler.kf, h]

/-- C7: for every parsed token, kf returns an error and no key when the
method of the token is not of the HMAC family, and returns the fixed secret
with no error exactly when it is. Hence, for every first value of the
`Token` header whose `alg` header does not name an HMAC method, whatever the
claims and the signature are and whatever the signature verification of the
library would answer, the parse ends with the error of the key function
alone (the bit for an invalid signature is not set), and IsValidJWT returns
false after writing 401 `Unauthorized`. -/
theorem kf_pins_HMAC (token : jwt.Token) :
    (token.Method.isHMAC = false → handler.kf token = (none, some "an error occured")) ∧
    (token.Method.isHMAC = true → handler.kf token = (some "2ofClubs", none)) ∧
    ((handler.kf token).2 = none ↔ token.Method.isHMAC = true) ∧
    ∀ (lib : jwt.Lib) (now : time.Time) (w : http.ResponseWriter) (r : http.Request)
      (raw : String) (rest : List String) (seg : jwt.Segments) (alg : String)
      (m : jwt.SigningMethod),
      r.Header "Token" = some (raw :: rest) → lib.decode raw = some seg →
      seg.alg = some alg → jwt.GetSigningMethod alg = some m → m.isHMAC = false →
      (jwt.Parse lib now raw handler.kf).2 = some [jwt.ErrorFlag.Unverifiable] ∧
      handler.IsValidJWT lib now w r =
        some (false,
          { calls := w.calls ++
              [http.WriterCall.WriteHeader 401, http.WriterCall.Write "Unauthorized"],
            writeFails := w.writeFails }) := by
  refine ⟨?_, ?_, ?_, ?_⟩
  · intro h
    simp [handler.kf_eq, h]
  · intro h
    simp [handler.kf_eq, h]
  · cases h : token.Method.isHMAC <;> simp [handler.kf_eq, h]
  · intro lib now w r raw rest seg alg m hr hd ha hm hnot
    have hparse : jwt.Parse lib now raw handler.kf =
        (some { Raw := raw, Method := m, Claims := seg.Claims, Signature := "", Valid := false },
         some [jwt.ErrorFlag.Unverifiable]) := by
      simp [jwt.Parse, hd, ha, hm, handler.kf_eq, hnot]
    refine ⟨by rw [hparse], ?_⟩
    obtain ⟨n, hn⟩ := handler.WriteData_response "Unauthorized" 401 w http.valid_401
    simp [handler.IsValidJWT, hr, hparse, hn, http.StatusUnauthorized]

theorem kf_pins_HMAC_witness :
    sample.lib.decode "r.c.AQID" =
      some { alg := some "RS256",
             Claims := fun k => (handler.issuedClaims 0 "alice" k).map
               (jwt.wire (fun _ => "1970-01-01T00:00:00Z")),
             signingString := "r.c", Signature := "AQID" } ∧
    jwt.GetSigningMethod "RS256" = some jwt.SigningMethod.RS256 ∧
    sample.lib.Verify jwt.SigningMethod.RS256 "r.c" "AQID" (some "2ofClubs") = true ∧
    handler.IsValidJWT sample.lib 0 sample.writer (sample.request "r.c.AQID") =
      some (false,
        { calls := sample.writer.calls ++
            [http.WriterCall.WriteHeader 401, http.WriterCall.Write "Unauthorized"],
          writeFails := sample.writer.writeFails }) :=
  ⟨rfl, by decide, by decide,
   ((kf_pins_HMAC ⟨"", jwt.SigningMethod.RS256, fun _ => none, "", false⟩).2.2.2
      sample.lib 0 sample.writer (sample.request "r.c.AQID") "r.c.AQID" [] _ "RS256"
      jwt.SigningMethod.RS256 (by decide) rfl rfl (by decide) (by decide)).2⟩

/-- C9: for every request as net/http delivers it, where a header key that is
present has at least one value, IsValidJWT returns: it does not index out of
range and does not panic. When the `Token` header is absent, and when its
first value (the empty string for a header sent with no value) is malformed
or in any other way does not parse to a valid token, IsValidJWT returns
false after writing 401 `Unauthorized`, and nothing of the parse error is
written. It returns true, writing nothing, exactly when the first value
parses without error and the parsed token is valid. -/
theorem IsValidJWT_no_credential (lib : jwt.Lib) (now : time.Time)
    (w : http.ResponseWriter) (r : http.Request)
    (hrecv : r.Header "Token" ≠ some []) :
    (handler.IsValidJWT lib now w r = some (true, w) ∨
      handler.IsValidJWT lib now w r =
        some (false,
          { calls := w.calls ++
              [http.WriterCall.WriteHeader 401, http.WriterCall.Write "Unauthorized"],
            writeFails := w.writeFails })) ∧
    (r.Header "Token" = none →
      handler.IsValidJWT lib now w r =
        some (false,
          { calls := w.calls ++
              [http.WriterCall.WriteHeader 401, http.WriterCall.Write "Unauthorized"],
            writeFails := w.writeFails })) ∧
    (∀ (token0 : String) (rest : List String), r.Header "Token" = some (token0 :: rest) →
      (lib.decode token0 = none →
        handler.IsValidJWT lib now w r =
          some (false,
            { calls := w.calls ++
                [http.WriterCall.WriteHeader 401, http.WriterCall.Write "Unauthorized"],
              writeFails := w.writeFails })) ∧
      ((¬ ∃ t, jwt.Parse lib now token0 handler.kf = (some t, none) ∧ t.Valid = true) →
        handler.IsValidJWT lib now w r =
          some (false,
            { calls := w.calls ++
                [http.WriterCall.WriteHeader 401, http.WriterCall.Write "Unauthorized"],
              writeFails := w.writeFails })) ∧
      (handler.IsValidJWT lib now w r = some (true, w) ↔
        ∃ t, jwt.Parse lib now token0 handler.kf = (some t, none) ∧ t.Valid = true)) := by
  obtain ⟨n, hn⟩ := handler.WriteData_response "Unauthorized" 401 w http.valid_401
  have hfirst : ∀ (token0 : String) (rest : List String),
      r.Header "Token" = some (token0 :: rest) →
      ((∃ t, jwt.Parse lib now token0 handler.kf = (some t, none) ∧ t.Valid = true) ∧
        handler.IsValidJWT lib now w r = some (true, w)) ∨
      ((¬ ∃ t, jwt.Parse lib now token0 handler.kf = (some t, none) ∧ t.Valid = true) ∧
        handler.IsValidJWT lib now w r =
          some (false,
            { calls := w.calls ++
                [http.WriterCall.WriteHeader 401, http.WriterCall.Write "Unauthorized"],
              writeFails := w.writeFails })) := by
    intro token0 rest hr
    rcases jwt.Parse_cases lib now token0 handler.kf with ⟨t, ht, hv⟩ | ⟨ot, e, he⟩
    · left
      exact ⟨⟨t, ht, hv⟩, by simp [handler.IsValidJWT, hr, ht, hv]⟩
    · right
      refine ⟨?_, by simp [handler.IsValidJWT, hr, he, hn, http.StatusUnauthorized]⟩
      rintro ⟨t, ht, _⟩
      rw [he] at ht
      simp at ht
  have habsent : r.Header "Token" = none →
      handler.IsValidJWT lib now w r =
        some (false,
          { calls := w.calls ++
              [http.WriterCall.WriteHeader 401, http.WriterCall.Write "Unauthorized"],
            writeFails := w.writeFails }) := by
    intro hnil
    simp [handler.IsValidJWT, hnil, hn, http.StatusUnauthorized]
  refine ⟨?_, habsent, ?_⟩
  · cases hh : r.Header "Token" with
    | none => exact Or.inr (habsent hh)
    | some token =>
      cases token with
      | nil => exact absurd hh hrecv
      | cons token0 rest =>
        rcases hfirst token0 rest hh with ⟨_, hok⟩ | ⟨_, hno⟩
        · exact Or.inl hok
        · exact Or.inr hno
  · intro token0 rest hr
    refine ⟨?_, ?_, ?_⟩
    · intro hmal
      rcases hfirst token0 rest hr with ⟨⟨t, ht, _⟩, _⟩ | ⟨_, hno⟩
      · simp [jwt.Parse, hmal] at ht
      · exact hno
    · intro hnot
      rcases hfirst token0 rest hr with ⟨hex, _⟩ | ⟨_, hno⟩
      · exact absurd hex hnot
      · exact hno
    · constructor
      · intro hok
        rcases hfirst token0 rest hr with ⟨hex, _⟩ | ⟨_, hno⟩
        · exact hex
        · rw [hno] at hok
          simp at hok
      · intro hex
        rcases hfirst token0 rest hr with ⟨_, hok⟩ | ⟨hnot, _⟩
        · exact hok
        · exact absurd hex hnot

/-- The one shape of the header map that the server of net/http does not
deliver, a `Token` entry that is a non-nil slice without elements, passes
the nil test of IsValidJWT and makes the index of element 0 panic. -/
theorem handler.IsValidJWT_empty_slice (lib : jwt.Lib) (now : time.Time)
    (w : http.ResponseWriter) :
    handler.IsValidJWT lib now w
      { Header := fun k => if k = "Token" then some [] else none } = none := by
  simp [handler.IsValidJWT]

theorem IsValidJWT_no_credential_witness :
    (sample.request "").Header "Token" ≠ some [] ∧
    (sample.request "").Header "Token" = some [""] ∧
    sample.lib.decode "" = none ∧
    handler.IsValidJWT sample.lib 0 sample.writer (sample.request "") =
      some (false,
        { calls := sample.writer.calls ++
            [http.WriterCall.WriteHeader 401, http.WriterCall.Write "Unauthorized"],
          writeFails := sample.writer.writeFails }) :=
  ⟨by decide, by decide, rfl,
   ((IsValidJWT_no_credential sample.lib 0 sample.writer (sample.request "")
      (by decide)).2.2 "" [] (by decide)).1 rfl⟩

/-! ## The role check -/

/-- C10, as the claim states it, fails: for a request without a `sub` claim
and a user table in which an admin record carries the username `<nil>`,
isAdmin returns true. -/
theorem isAdmin_true_without_sub :
    sample.env.GetTokenClaims sample.anonymous "sub" = none ∧
    (handler.isAdmin sample.env sample.usersWithNil sample.anonymous).1 = true := by
  decide

/-- C10, amended: for every request and database, isAdmin returns false
whenever the lookup of the subject finds no record, in particular when no
user record carries the subject as its username. When the `sub` claim is
missing the subject looked up is the text `<nil>`, and isAdmin returns false
for it whenever no user record carries that username. When the lookup finds
a record, isAdmin returns the IsAdmin flag of that record, so it returns
true only if a record with the subject as username and the flag set is in
the table. The database after isAdmin is the database before it. -/
theorem isAdmin_fails_closed (e : handler.Env) (db : gorm.DB) (r : http.Request) :
    ((handler.SingleRecordExists db model.UserTable model.UsernameColumn
        (handler.Sprintf_v e (e.GetTokenClaims r "sub")) model.NewUser).1 = false →
      (handler.isAdmin e db r).1 = false) ∧
    ((∀ u ∈ db.user, u.Username ≠ handler.Sprintf_v e (e.GetTokenClaims r "sub")) →
      (handler.isAdmin e db r).1 = false) ∧
    (e.GetTokenClaims r "sub" = none →
      handler.Sprintf_v e (e.GetTokenClaims r "sub") = "<nil>" ∧
      ((∀ u ∈ db.user, u.Username ≠ "<nil>") → (handler.isAdmin e db r).1 = false)) ∧
    (∀ (u : model.User) (db2 : gorm.DB),
      handler.SingleRecordExists db model.UserTable model.UsernameColumn
        (handler.Sprintf_v e (e.GetTokenClaims r "sub")) model.NewUser = (true, u, db2) →
      (handler.isAdmin e db r).1 = u.IsAdmin) ∧
    ((handler.isAdmin e db r).1 = true →
      ∃ u ∈ db.user, u.Username = handler.Sprintf_v e (e.GetTokenClaims r "sub") ∧
        u.IsAdmin = true) ∧
    (handler.isAdmin e db r).2 = db := by
  have hnone : (∀ u ∈ db.user, u.Username ≠ handler.Sprintf_v e (e.GetTokenClaims r "sub")) →
      (handler.isAdmin e db r).1 = false := by
    intro hno
    have hf : db.user.find?
        (fun u => u.Username == handler.Sprintf_v e (e.GetTokenClaims r "sub")) = none := by
      rw [List.find?_eq_none]
      intro u hu
      simpa using hno u hu
    simp [handler.isAdmin, handler.SingleRecordExists, hf]
  refine ⟨?_, hnone, ?_, ?_, ?_, ?_⟩
  · intro hfalse
    cases hf : db.user.find?
        (fun u => u.Username == handler.Sprintf_v e (e.GetTokenClaims r "sub")) with
    | none => simp [handler.isAdmin, handler.SingleRecordExists, hf]
    | some u => simp [handler.SingleRecordExists, hf] at hfalse
  · intro hsub
    have hs : handler.Sprintf_v e (e.GetTokenClaims r "sub") = "<nil>" := by
      rw [hsub]
      rfl
    refine ⟨hs, ?_⟩
    intro hno
    apply hnone
    rw [hs]
    exact hno
  · intro u db2 hfound
    cases hf : db.user.find?
        (fun u => u.Username == handler.Sprintf_v e (e.GetTokenClaims r "sub")) with
    | none => simp [handler.SingleRecordExists, hf] at hfound
    | some v =>
      simp [handler.SingleRecordExists, hf] at hfound
      simp [handler.isAdmin, handler.SingleRecordExists, hf, hfound.1]
  · intro htrue
    cases hf : db.user.find?
        (fun u => u.Username == handler.Sprintf_v e (e.GetTokenClaims r "sub")) with
    | none => simp [handler.isAdmin, handler.SingleRecordExists, hf] at htrue
    | some v =>
      simp [handler.isAdmin, handler.SingleRecordExists, hf] at htrue
      refine ⟨v, List.mem_of_find?_eq_some hf, ?_, htrue⟩
      simpa using List.find?_some hf
  · cases hf : db.user.find?
        (fun u => u.Username == handler.Sprintf_v e (e.GetTokenClaims r "sub")) <;>
      simp [handler.isAdmin, handler.SingleRecordExists, hf]

theorem isAdmin_fails_closed_witness :
    sample.env.GetTokenClaims sample.anonymous "sub" = none ∧
    (∀ u ∈ sample.users.user, u.Username ≠ "<nil>") ∧
    (handler.isAdmin sample.env sample.users sample.anonymous).1 = false ∧
    (handler.isAdmin sample.env sample.users (sample.request "tok-root")).1 = true :=
  ⟨by decide, by decide,
   ((isAdmin_fails_closed sample.env sample.users sample.anonymous).2.2.1 (by decide)).2
     (by decide),
   by decide⟩
